import Mathlib

/-!
Verification of the `imagec` image-pull engine (`src/lib/imagec/imagec.go`).

This file shallowly embeds the data model and operations of the Go source:
pure functions become Lean functions, stateful code passes state explicitly,
fallible code returns `Except`/`Option`, and the external collaborators that
the source calls (registry fetchers, caches, the filesystem) are passed in as
explicit environments so that the control flow of the source is preserved
verbatim.  External library primitives that live outside this repository
(the docker `reference` parser, `net/url`, `path`, `crypto/sha256`, JSON
(un)marshalling) are modelled as executable Lean definitions, each marked in
its doc comment.
-/

namespace Imagec

/-! ## Character-list utilities

The Go source works on `string`s; we mirror string algorithms on `List Char`
(a `String` is definitionally a `List Char` wrapper), which keeps every
definition executable and keeps the proofs inductive. -/

/-- Split a character list at every occurrence of `c`.  Mirrors the behaviour
of Go `strings.Split`: the result is always non-empty and splitting `"a//b"`
on `/` yields `["a", "", "b"]`. -/
def splitOnChar (c : Char) : List Char → List (List Char)
  | [] => [[]]
  | x :: xs =>
    if x = c then [] :: splitOnChar c xs
    else
      match splitOnChar c xs with
      | [] => [[x]]
      | h :: t => (x :: h) :: t

/-- Interleave the separator `c` between the segments; inverse of
`splitOnChar` on separator-free segments. -/
def intercalateChar (c : Char) : List (List Char) → List Char
  | [] => []
  | [s] => s
  | s :: rest => s ++ c :: intercalateChar c rest

/-- Does the character list contain `c`? -/
def containsChar (c : Char) (l : List Char) : Bool := l.contains c

/-- First index of `c` in `l`, if any. -/
def indexOfChar (c : Char) (l : List Char) : Option Nat := l.indexOf? c

/-! ## Model of the docker `reference` library

`ParseReference` and `updateRepositoryCache` call
`github.com/docker/docker/reference`, which is code outside this repository.
Modelled from the spec: "parses a user-supplied image reference string into
{registry host, repository name, tag}, applying default registry/tag rules"
(§4.1), with the two resolution scenarios of §8 pinning the default-host,
`library/` and default-tag rules. -/

/-- Modelled from the spec: the well-known default host marker used by the
docker reference library (`reference.DefaultHostname`). -/
def DefaultHostname : String := "docker.io"

/-- Modelled from the spec: legacy alias of the default host marker. -/
def LegacyDefaultHostname : String := "index.docker.io"

/-- Modelled from the spec: the well-known default tag
(`reference.DefaultTag`). -/
def DefaultTag : String := "latest"

/-- Modelled from the spec: a parsed named reference — {registry host,
repository name, optional tag, optional digest}. -/
structure ParsedNamed where
  hostname : String
  remoteName : String
  tag : Option String
  digest : Option String
  deriving DecidableEq, Repr

/-- Modelled from the spec: split a repository name into (hostname, remote
name).  A first path component is a hostname only when it contains a dot or a
colon or is the literal `localhost`; otherwise the default host is assumed,
and official single-component repositories are prefixed with `library/`. -/
def splitHostname (name : List Char) : String × List Char :=
  let (host, remote) :=
    match indexOfChar '/' name with
    | none => (DefaultHostname, name)
    | some i =>
      let first := name.take i
      if ¬(containsChar '.' first ∨ containsChar ':' first) ∧
          String.mk first ≠ "localhost" then
        (DefaultHostname, name)
      else
        (String.mk first, name.drop (i + 1))
  let host := if host = LegacyDefaultHostname then DefaultHostname else host
  if host = DefaultHostname ∧ ¬containsChar '/' remote then
    (host, ('l' :: 'i' :: 'b' :: 'r' :: 'a' :: 'r' :: 'y' :: '/' :: []) ++ remote)
  else
    (host, remote)

/-- Modelled from the spec: split the trailing `:tag` off a reference body.
Only a colon occurring after the last slash separates a tag, so a registry
port (`host:5000/app`) is not mistaken for a tag.  Returns `none` on a
malformed (empty) tag. -/
def splitTag (body : List Char) : Option (List Char × Option String) :=
  match splitOnChar '/' body with
  | [] => none
  | segs =>
    match segs.getLast? with
    | none => none
    | some last =>
      match splitOnChar ':' last with
      | [_] => some (body, none)
      | [repo, t] =>
        if t = [] then none
        else some (intercalateChar '/' (segs.dropLast ++ [repo]), some (String.mk t))
      | _ => none

/-- Modelled from the spec: `reference.ParseNamed` — parse a reference string
into {hostname, remote name, optional tag, optional digest}; `none` on
malformed input (`InvalidReferenceError`). -/
def parseNamed (s : String) : Option ParsedNamed :=
  if s = "" then none
  else
    match splitOnChar '@' s.data with
    | [body] =>
      match splitTag body with
      | none => none
      | some (name, tag) =>
        if name = [] then none
        else
          let (host, remote) := splitHostname name
          if remote = [] then none
          else some ⟨host, String.mk remote, tag, none⟩
    | [body, dig] =>
      if dig = [] then none
      else
        match splitTag body with
        | none => none
        | some (name, tag) =>
          if name = [] then none
          else
            let (host, remote) := splitHostname name
            if remote = [] then none
            else some ⟨host, String.mk remote, tag, some (String.mk dig)⟩
    | _ => none

/-- Modelled from the spec: `reference.IsNameOnly` — the reference carries
neither tag nor digest. -/
def isNameOnly (r : ParsedNamed) : Bool := r.tag.isNone ∧ r.digest.isNone

/-- Modelled from the spec: the canonical string form of a parsed reference
(`ref.String()`), used as the repository-cache binding key. -/
def ParsedNamed.refString (r : ParsedNamed) : String :=
  let base := (if r.hostname = DefaultHostname then "" else r.hostname ++ "/") ++ r.remoteName
  let base := match r.tag with
    | some t => base ++ ":" ++ t
    | none => base
  match r.digest with
  | some d => base ++ "@" ++ d
  | none => base

/-- Modelled from the spec: the repository name of a parsed reference
(`ref.Name()`), without tag or digest. -/
def ParsedNamed.refName (r : ParsedNamed) : String :=
  (if r.hostname = DefaultHostname then "" else r.hostname ++ "/") ++ r.remoteName

/-! ## Options / ImageC state (from the source) -/

/-- `DefaultDockerURL` from the source: the URL of the Docker registry. -/
def DefaultDockerURL : String := "registry-1.docker.io"

/-- `DefaultDestination` from the source: default output directory. -/
def DefaultDestination : String := "images"

/-- OAuth token handed back by the fetcher collaborator; its content is
opaque to this file. -/
structure Token where
  token : String
  deriving DecidableEq, Repr

/-! ## Manifest data model

The `Manifest` type lives in another file of this repository (not under
`src/`).  Modelled from the spec: "Manifest (schema v1): ordered list of
{history entry, blob-sum} pairs, index 0 = topmost (most specific) layer,
increasing index = older ancestor", plus the `Name` field that
`CreateImageConfig` reads.

A history entry's `V1Compatibility` is an opaque serialized JSON document in
the source; we embed it at the level of its parse result: `none` stands for a
string that `json.Unmarshal` rejects, `some doc` for one that parses to the
per-layer configuration `doc`.  Each document field is an `Option` because Go
`json.Unmarshal` into a reused struct only overwrites the fields present in
the document — absent fields keep the value left by the previous iteration,
and the embedding reproduces that merge semantics exactly.  (Nested documents
such as `container_config` are merged atomically here; no claim depends on
field-level nested merging.) -/

/-- Parsed form of one `V1Compatibility` per-layer configuration document;
`none` fields are absent from the JSON document. -/
structure V1CompatDoc where
  id : Option String := none
  parent : Option String := none
  comment : Option String := none
  created : Option String := none
  container : Option String := none
  cmd : Option (List String) := none
  dockerVersion : Option String := none
  author : Option String := none
  config : Option String := none
  architecture : Option String := none
  os : Option String := none
  deriving DecidableEq, Repr

/-- One schema-v1 manifest history entry: the serialized per-layer
configuration, embedded as its parse result (`none` = malformed). -/
structure HistoryEntry where
  v1Compatibility : Option V1CompatDoc
  deriving DecidableEq, Repr

/-- One schema-v1 manifest FS-layer entry (`FSLayer`): the layer blob digest. -/
structure FSLayer where
  blobSum : String := ""
  deriving DecidableEq, Repr

/-- Modelled from the spec: the schema-v1 manifest — an ordered list of
{history entry, blob-sum} pairs plus the repository name. -/
structure Manifest where
  name : String := ""
  tag : String := ""
  entries : List (HistoryEntry × FSLayer) := []
  deriving DecidableEq, Repr

/-- The manifest's history column (`manifest.History`). -/
def Manifest.history (m : Manifest) : List HistoryEntry := m.entries.map Prod.fst

/-- The manifest's FS-layer column (`manifest.FSLayers`). -/
def Manifest.fsLayers (m : Manifest) : List FSLayer := m.entries.map Prod.snd

/-- Schema-2 manifest (`schema2.DeserializedManifest`): used only to carry a
more authoritative digest; its payload is opaque to this file. -/
structure Schema2Manifest where
  payload : String := ""
  deriving DecidableEq, Repr

/-- A manifest value returned by the fetch collaborator, before the type
assertions in `PullImage` pick the expected schema. -/
inductive FetchedManifest where
  | schema1 (m : Manifest)
  | schema2 (m : Schema2Manifest)
  deriving DecidableEq, Repr

/-- `models.Image` (portlayer model): the fields read and written by this
source file. -/
structure ModelsImage where
  iD : String := ""
  parent : String := ""
  store : String := ""
  deriving DecidableEq, Repr

/-- `ImageWithMeta` from the source: wraps the `models.Image` with metadata.
`meta` holds the record's `V1Compatibility` string, embedded as its parse
result exactly like `HistoryEntry.v1Compatibility`. -/
structure ImageWithMeta where
  image : ModelsImage := {}
  diffID : String := ""
  layer : FSLayer := {}
  meta : Option V1CompatDoc := none
  size : Int := 0
  downloading : Bool := false
  deriving DecidableEq, Repr

/-- `Options` from the source (the fields this file's claims exercise; the
transport/credential knobs that are only passed through to collaborators are
omitted from the shallow state). -/
structure Options where
  reference : String := ""
  registry : String := ""
  image : String := ""
  tag : String := ""
  destination : String := ""
  host : String := ""
  storename : String := ""
  token : Option Token := none
  imageManifestSchema1 : Option Manifest := none
  imageManifestSchema2 : Option Schema2Manifest := none
  manifestDigest : String := ""
  deriving DecidableEq, Repr

/-- `ImageC` from the source: the options plus the pull-scoped layer list and
computed image ID. -/
structure ImageC where
  options : Options := {}
  imageLayers : List ImageWithMeta := []
  imageID : String := ""
  deriving DecidableEq, Repr

/-! ## ParseReference (source lines 160–184) -/

/-- `ParseReference` from the source: parse `ic.Reference` and populate
`Tag`, `Registry` and `Image`; on a parse failure the error is returned
before any field is assigned.  The returned pair is (updated state, error). -/
def ParseReference (ic : ImageC) : ImageC × Option String :=
  match parseNamed ic.options.reference with
  | none => (ic, some "Error while parsing reference")
  | some ref =>
    let tag := if ¬isNameOnly ref then
        match ref.tag with
        | some t => t
        | none => DefaultTag
      else DefaultTag
    let registry := if ref.hostname ≠ DefaultHostname then ref.hostname else DefaultDockerURL
    ({ ic with options := { ic.options with
        tag := tag, registry := registry, image := ref.remoteName } }, none)

/-! ## DestinationDirectory (source lines 186–222)

`DestinationDirectory` calls `net/url.Parse` and `path.Join`, both external
library primitives; they are modelled below as executable definitions.
`path.Join` joins the elements starting at the first non-empty one and then
applies the lexical `path.Clean` algorithm (drop empty and `.` segments, let
`..` pop the preceding segment). -/

/-- Modelled: the lexical segment-cleaning stack of Go `path.Clean`.
`acc` is the reversed stack of kept segments. -/
def cleanSegsAux (rooted : Bool) : List (List Char) → List (List Char) → List (List Char)
  | acc, [] => acc.reverse
  | acc, s :: rest =>
    if s = [] ∨ s = ['.'] then cleanSegsAux rooted acc rest
    else if s = ['.', '.'] then
      match acc with
      | a :: accTail =>
        if a = ['.', '.'] then cleanSegsAux rooted (s :: acc) rest
        else cleanSegsAux rooted accTail rest
      | [] => if rooted then cleanSegsAux rooted [] rest
              else cleanSegsAux rooted [s] rest
    else cleanSegsAux rooted (s :: acc) rest

/-- Modelled: Go `path.Clean` on a character list (lexical cleaning of a
slash-separated path). -/
def pathCleanChars (cs : List Char) : List Char :=
  let rooted := cs.head? == some '/'
  let segs := cleanSegsAux rooted [] (splitOnChar '/' cs)
  if segs.isEmpty then (if rooted then ['/'] else ['.'])
  else (if rooted then ['/'] else []) ++ intercalateChar '/' segs

/-- Modelled: Go `path.Clean`. -/
def pathClean (s : String) : String := String.mk (pathCleanChars s.data)

/-- Modelled: Go `path.Join` — join the elements from the first non-empty one
with `/` and clean the result; all-empty input yields the empty path. -/
def pathJoin (parts : List String) : String :=
  match parts.dropWhile (fun p => p = "") with
  | [] => ""
  | l => pathClean (String.mk (intercalateChar '/' (l.map String.data)))

/-- Result of `net/url.Parse` restricted to the fields the source reads. -/
structure ParsedURL where
  scheme : String := ""
  host : String := ""
  path : String := ""
  deriving DecidableEq, Repr

/-- Modelled: `net/url.Parse` on the URL shapes this program produces —
`scheme://host/path` splits into the three fields; a string without `://` is
an opaque path with empty scheme and host. -/
def urlParse (s : String) : ParsedURL :=
  let cs := s.data
  match (List.range cs.length).find? (fun i =>
      (cs.drop i).take 3 = [':', '/', '/']) with
  | none => { path := s }
  | some i =>
    let scheme := cs.take i
    let rest := cs.drop (i + 3)
    match indexOfChar '/' rest with
    | none => { scheme := String.mk scheme, host := String.mk rest }
    | some j =>
      { scheme := String.mk scheme
        host := String.mk (rest.take j)
        path := String.mk (rest.drop j) }

/-- The output path as a function of the six joined components; the body of
`DestinationDirectory` after `url.Parse`. -/
def destinationParts (dest scheme host p image tag : String) : String :=
  pathJoin [dest, scheme, host, p, image, tag]

/-- `DestinationDirectory` from the source: the deterministic output
directory `destination/scheme/host/path/image/tag` for a pull. -/
def DestinationDirectory (options : Options) : String :=
  let u := urlParse options.registry
  destinationParts options.destination u.scheme u.host u.path options.image options.tag

/-! ## LayersToDownload (source lines 224–267) -/

/-- `docker.V1Image`, the struct that `json.Unmarshal` deserializes each
history entry into.  Only the fields this source file reads are carried;
`created` stands in for the opaque `time.Time`, `config` for the opaque
container configuration. -/
structure V1Image where
  id : String := ""
  parent : String := ""
  comment : String := ""
  created : String := ""
  container : String := ""
  cmd : List String := []
  dockerVersion : String := ""
  author : String := ""
  config : String := ""
  architecture : String := ""
  os : String := ""
  size : Int := 0
  deriving DecidableEq, Repr

/-- Modelled: Go `json.Unmarshal` of a per-layer configuration document into
an existing `docker.V1Image` value — fields present in the document overwrite
the struct, absent fields keep their previous value. -/
def unmarshalV1 (v : V1Image) (d : V1CompatDoc) : V1Image :=
  { id := d.id.getD v.id
    parent := d.parent.getD v.parent
    comment := d.comment.getD v.comment
    created := d.created.getD v.created
    container := d.container.getD v.container
    cmd := d.cmd.getD v.cmd
    dockerVersion := d.dockerVersion.getD v.dockerVersion
    author := d.author.getD v.author
    config := d.config.getD v.config
    architecture := d.architecture.getD v.architecture
    os := d.os.getD v.os
    size := v.size }

/-- The layer cache's keyed lookup (`LayerCache().Get`), a collaborator
outside `src/`.  Modelled from the spec: "query the layer cache by local
image ID"; `none` models the lookup error for an unknown ID. -/
def LayerCacheGet : Type := String → Option ImageWithMeta

/-- An always-missing layer cache. -/
def noLayerCache : LayerCacheGet := fun _ => none

/-- The cache-substitution step of `LayersToDownload`: a cache hit that is
not itself mid-download replaces the freshly constructed record. -/
def substCached (cacheGet : LayerCacheGet) (r : ImageWithMeta) : ImageWithMeta :=
  match cacheGet r.image.iD with
  | some cached => if ¬cached.downloading then cached else r
  | none => r

/-- The loop of `LayersToDownload`, iterating the manifest entries "from
parent to children" (Go: index `len-1` down to `0`).  Recursing on the tail
first reproduces that order exactly: the older suffix is processed before the
entry at the head, and the running `docker.V1Image` value that Go declares
once outside the loop is threaded through as state (so fields absent from an
entry's document keep the value left by the previously processed, older
entry).  Returns the final state together with the records, index-aligned
with the entries. -/
def layersLoop (storename : String) (cacheGet : LayerCacheGet) :
    List (HistoryEntry × FSLayer) → Except String (V1Image × List ImageWithMeta)
  | [] => .ok ({}, [])
  | (history, layer) :: rest => do
    let (v1, recs) ← layersLoop storename cacheGet rest
    match history.v1Compatibility with
    | none => .error "Failed to unmarshall image history"
    | some doc =>
      let v1 := unmarshalV1 v1 doc
      let parent := if v1.parent ≠ "" then v1.parent else "scratch"
      let fresh : ImageWithMeta :=
        { image := { iD := v1.id, parent := parent, store := storename }
          meta := history.v1Compatibility
          layer := layer }
      .ok (v1, substCached cacheGet fresh :: recs)

/-- `LayersToDownload` from the source: build one `ImageWithMeta` per
manifest entry, substituting completed layer-cache entries.  The receiver's
`ic.Storename` and `ic.ImageManifestSchema1`, and the process-wide layer
cache, are passed explicitly. -/
def LayersToDownload (storename : String) (cacheGet : LayerCacheGet)
    (manifest : Manifest) : Except String (List ImageWithMeta) :=
  (layersLoop storename cacheGet manifest.entries).map Prod.snd

/-! ## SHA-256 (model of `crypto/sha256`)

`CreateImageConfig` hashes the marshalled image document with
`sha256.Sum256`.  The algorithm is implemented here over `Nat` with explicit
reduction modulo `2^32`; the claims about `CreateImageConfig` depend only on
it being a fixed function of its input bytes. -/

/-- Truncate to a 32-bit word. -/
def w32 (n : Nat) : Nat := n % 4294967296

/-- 32-bit right rotation (input assumed `< 2^32`). -/
def rotr32 (x k : Nat) : Nat := x / 2 ^ k + x % 2 ^ k * 2 ^ (32 - k)

/-- SHA-256 `Ch` function. -/
def shaCh (e f g : Nat) : Nat := (e &&& f) ^^^ ((e ^^^ 4294967295) &&& g)

/-- SHA-256 `Maj` function. -/
def shaMaj (a b c : Nat) : Nat := (a &&& b) ^^^ (a &&& c) ^^^ (b &&& c)

/-- SHA-256 big sigma-0. -/
def shaS0 (a : Nat) : Nat := rotr32 a 2 ^^^ rotr32 a 13 ^^^ rotr32 a 22

/-- SHA-256 big sigma-1. -/
def shaS1 (e : Nat) : Nat := rotr32 e 6 ^^^ rotr32 e 11 ^^^ rotr32 e 25

/-- SHA-256 small sigma-0. -/
def shaL0 (x : Nat) : Nat := rotr32 x 7 ^^^ rotr32 x 18 ^^^ x / 8

/-- SHA-256 small sigma-1. -/
def shaL1 (x : Nat) : Nat := rotr32 x 17 ^^^ rotr32 x 19 ^^^ x / 1024

/-- The 64 SHA-256 round constants. -/
def shaK : List Nat :=
  [1116352408, 1899447441, 3049323471, 3921009573,
   961987163, 1508970993, 2453635748, 2870763221,
   3624381080, 310598401, 607225278, 1426881987,
   1925078388, 2162078206, 2614888103, 3248222580,
   3835390401, 4022224774, 264347078, 604807628,
   770255983, 1249150122, 1555081692, 1996064986,
   2554220882, 2821834349, 2952996808, 3210313671,
   3336571891, 3584528711, 113926993, 338241895,
   666307205, 773529912, 1294757372, 1396182291,
   1695183700, 1986661051, 2177026350, 2456956037,
   2730485921, 2820302411, 3259730800, 3345764771,
   3516065817, 3600352804, 4094571909, 275423344,
   430227734, 506948616, 659060556, 883997877,
   958139571, 1322822218, 1537002063, 1747873779,
   1955562222, 2024104815, 2227730452, 2361852424,
   2428436474, 2756734187, 3204031479, 3329325298]

/-- The SHA-256 initial hash state. -/
def shaH0 : List Nat :=
  [1779033703, 3144134277, 1013904242, 2773480762,
   1359893119, 2600822924, 528734635, 1541459225]

/-- Big-endian bytes of an 8-byte quantity. -/
def be64 (n : Nat) : List Nat :=
  [n / 2 ^ 56 % 256, n / 2 ^ 48 % 256, n / 2 ^ 40 % 256, n / 2 ^ 32 % 256,
   n / 2 ^ 24 % 256, n / 2 ^ 16 % 256, n / 2 ^ 8 % 256, n % 256]

/-- SHA-256 message padding: append `0x80`, zero-pad to 56 mod 64, append
the bit length big-endian. -/
def shaPad (msg : List Nat) : List Nat :=
  let len := msg.length
  let k := (119 - len % 64) % 64
  msg ++ 128 :: List.replicate k 0 ++ be64 (8 * len)

/-- Split a byte list into 64-byte blocks (fuel-driven; call with
`fuel = l.length`). -/
def chunks64Aux : Nat → List Nat → List (List Nat)
  | 0, _ => []
  | _, [] => []
  | fuel + 1, l => l.take 64 :: chunks64Aux fuel (l.drop 64)

/-- Group a 64-byte block into sixteen big-endian 32-bit words. -/
def blockWords : List Nat → List Nat
  | b0 :: b1 :: b2 :: b3 :: rest =>
    (b0 * 2 ^ 24 + b1 * 2 ^ 16 + b2 * 2 ^ 8 + b3) :: blockWords rest
  | _ => []

/-- Extend the sixteen block words to the 64-entry message schedule. -/
def shaExtend : Nat → List Nat → List Nat
  | 0, w => w
  | n + 1, w =>
    let l := w.length
    let next := w32 (shaL1 (w.getD (l - 2) 0) + w.getD (l - 7) 0 +
      shaL0 (w.getD (l - 15) 0) + w.getD (l - 16) 0)
    shaExtend n (w ++ [next])

/-- One SHA-256 compression round. -/
def shaRound (st : List Nat) (kw : Nat × Nat) : List Nat :=
  match st with
  | [a, b, c, d, e, f, g, h] =>
    let t1 := w32 (h + shaS1 e + shaCh e f g + kw.1 + kw.2)
    let t2 := w32 (shaS0 a + shaMaj a b c)
    [w32 (t1 + t2), a, b, c, w32 (d + t1), e, f, g]
  | st => st

/-- Compress one block into the running hash state. -/
def shaBlock (h : List Nat) (block : List Nat) : List Nat :=
  let w := shaExtend 48 (blockWords block)
  let st := (shaK.zip w).foldl shaRound h
  (h.zip st).map fun p => w32 (p.1 + p.2)

/-- Lower-case hex character of a nibble. -/
def hexChar (d : Nat) : Char :=
  if d < 10 then Char.ofNat (48 + d) else Char.ofNat (87 + d)

/-- Eight lower-case hex characters of a 32-bit word, most significant
first. -/
def hex8 (n : Nat) : List Char :=
  [hexChar (n / 2 ^ 28 % 16), hexChar (n / 2 ^ 24 % 16), hexChar (n / 2 ^ 20 % 16),
   hexChar (n / 2 ^ 16 % 16), hexChar (n / 2 ^ 12 % 16), hexChar (n / 2 ^ 8 % 16),
   hexChar (n / 2 ^ 4 % 16), hexChar (n % 16)]

/-- Modelled: `fmt.Sprintf("%x", sha256.Sum256(bytes))` — the lower-case hex
digest of the SHA-256 hash of a byte sequence. -/
def sha256Hex (msg : List Nat) : String :=
  let padded := shaPad msg
  let final := (chunks64Aux padded.length padded).foldl shaBlock shaH0
  String.mk (final.foldr (fun wrd acc => hex8 wrd ++ acc) [])

/-- UTF-8 encoding of one character. -/
def charUtf8 (c : Char) : List Nat :=
  let n := c.toNat
  if n < 128 then [n]
  else if n < 2048 then [192 + n / 64, 128 + n % 64]
  else if n < 65536 then [224 + n / 4096, 128 + n / 64 % 64, 128 + n % 64]
  else [240 + n / 262144, 128 + n / 4096 % 64, 128 + n / 64 % 64, 128 + n % 64]

/-- The bytes of a string. -/
def strBytes (s : String) : List Nat :=
  s.data.foldr (fun c acc => charUtf8 c ++ acc) []

/-! ## CreateImageConfig (source lines 359–446) -/

/-- `docker.History`: one image-history entry of the canonical image
document. -/
structure DockerHistory where
  created : String := ""
  author : String := ""
  createdBy : String := ""
  comment : String := ""
  emptyLayer : Bool := false
  deriving DecidableEq, Repr

/-- `docker.RootFS`: the root-filesystem section of the canonical image
document. -/
structure RootFS where
  type : String := "layers"
  diffIDs : List String := []
  deriving DecidableEq, Repr

/-- `docker.NewRootFS()`: a fresh `layers`-typed root filesystem with no
diff IDs. -/
def NewRootFS : RootFS := { type := "layers", diffIDs := [] }

/-- `docker.Image`: the canonical image-configuration document that is
marshalled and hashed. -/
structure DockerImage where
  v1 : V1Image := {}
  rootFS : RootFS := {}
  history : List DockerHistory := []
  deriving DecidableEq, Repr

/-- `dockerLayer.DigestSHA256EmptyTar.String()`: the well-known digest of an
empty layer tar. -/
def DigestSHA256EmptyTar : String :=
  "sha256:a3ed95caeb02ffe68cdd9fd84406680ae93d633cb16422d00e8a7c22955b46d4"

/-- `strings.Join(cmd, " ")`. -/
def joinSpace (l : List String) : String := String.intercalate " " l

/-- Modelled: serialization of one history entry for
`docker.Image.MarshalJSON`. -/
def marshalHistory (h : DockerHistory) : String :=
  "hist<created=" ++ h.created ++ "|author=" ++ h.author ++ "|created_by=" ++
    h.createdBy ++ "|comment=" ++ h.comment ++ "|empty_layer=" ++
    (if h.emptyLayer then "true" else "false") ++ ">"

/-- Modelled: `docker.Image.MarshalJSON` — the canonical serialization of the
image document.  The docker byte layout is not reproduced; the model
serializes, in a fixed order, exactly the fields of the document the source
builds (the claims depend on field selection and order, not on the byte
layout of the external library). -/
def marshalImage (img : DockerImage) : String :=
  "image<id=" ++ img.v1.id ++ "|parent=" ++ img.v1.parent ++ "|comment=" ++
    img.v1.comment ++ "|created=" ++ img.v1.created ++ "|container=" ++
    img.v1.container ++ "|container_config.cmd=" ++ joinSpace img.v1.cmd ++
    "|docker_version=" ++ img.v1.dockerVersion ++ "|author=" ++ img.v1.author ++
    "|config=" ++ img.v1.config ++ "|architecture=" ++ img.v1.architecture ++
    "|os=" ++ img.v1.os ++ "|rootfs.type=" ++ img.rootFS.type ++
    "|rootfs.diff_ids=" ++ joinSpace img.rootFS.diffIDs ++ "|history=" ++
    String.intercalate "," (img.history.map marshalHistory) ++ ">"

/-- `metadata.ImageConfig` (repository code outside `src/`); its fields are
exactly those assigned by the literal in `CreateImageConfig`.  The `diffIDs`
map is created and never filled by the source, so it is always empty. -/
structure ImageConfig where
  v1 : V1Image := {}
  imageID : String := ""
  digests : List String := []
  tags : List String := []
  name : String := ""
  diffIDs : List (String × String) := []
  history : List DockerHistory := []
  reference : String := ""
  deriving DecidableEq, Repr

/-- The chain-walking loop of `CreateImageConfig` (source lines 379–400):
step through the layers from oldest to newest (Go: index `len-1` down to
`0`), accumulating the reused `docker.V1Image` unmarshal target, the
root-filesystem diff-ID list, the history list and the total size.  Recursing
on the tail first processes the older suffix before the head, exactly like
the Go loop. -/
def buildLoop : List ImageWithMeta →
    Except String (V1Image × RootFS × List DockerHistory × Int)
  | [] => .ok ({}, NewRootFS, [], 0)
  | layer :: rest => do
    let (image, rootFS, history, size) ← buildLoop rest
    match layer.meta with
    | none => .error "Failed to unmarshall layer history"
    | some doc =>
      let image := unmarshalV1 image doc
      let h : DockerHistory :=
        { created := image.created, author := image.author
          createdBy := joinSpace image.cmd, comment := image.comment }
      let (h, rootFS) :=
        if layer.diffID = DigestSHA256EmptyTar then
          ({ h with emptyLayer := true }, rootFS)
        else
          (h, { rootFS with diffIDs := rootFS.diffIDs ++ [layer.diffID] })
      .ok (image, rootFS, history ++ [h], size + layer.size)

/-- The repository cache's image-ID lookup (`RepositoryCache().GetImageID`),
a collaborator outside `src/`.  Modelled from the spec: keyed lookup by
local image ID returning the bound image ID, `""` when unknown. -/
def RepoGetImageID : Type := String → String

/-- The image cache's lookup (`ImageCache().Get`), a collaborator outside
`src/`.  Modelled from the spec: keyed lookup by image ID of the stored
image configuration; `none` models the lookup error. -/
def ImageCacheGet : Type := String → Option ImageConfig

/-- `CreateImageConfig` from the source: short-circuit through the
repository/image caches, otherwise walk the chain with `buildLoop`, marshal
the canonical document, hash it into the image ID and assemble the
`metadata.ImageConfig`.  Go panics (`images[0]` on an empty slice, nil
schema-1 manifest dereference) are embedded as errors. -/
def CreateImageConfig (repoGet : RepoGetImageID) (imgGet : ImageCacheGet)
    (ic : ImageC) (images : List ImageWithMeta) : Except String ImageConfig :=
  match images with
  | [] => .error "panic: images[0] on empty layer list"
  | imageLayer :: _ =>
    match imgGet (repoGet imageLayer.image.iD) with
    | some image => .ok image
    | none =>
      match ic.options.imageManifestSchema1 with
      | none => .error "panic: nil schema-1 manifest"
      | some manifest => do
        let (image, rootFS, history, size) ← buildLoop images
        let result : DockerImage :=
          { v1 := { comment := image.comment, created := image.created
                    container := image.container, cmd := image.cmd
                    dockerVersion := image.dockerVersion, author := image.author
                    config := image.config, architecture := image.architecture
                    os := image.os }
            rootFS := rootFS
            history := history }
        let sum := sha256Hex (strBytes (marshalImage result))
        .ok { v1 := { result.v1 with
                parent := image.parent, size := size, id := imageLayer.image.iD }
              imageID := sum
              digests := [ic.options.manifestDigest]
              tags := [ic.options.tag]
              name := manifest.name
              diffIDs := []
              history := history
              reference := ic.options.reference }

/-! ## updateRepositoryCache (source lines 269–313)

The repository cache (`cache.RepositoryCache()`) is a collaborator outside
`src/`.  Modelled from the spec: it maps a reference string or digest string
to an image ID; `AddReference` binds a reference to an image ID and persists
it, and each persist can fail independently.  The cache state is an explicit
binding list (most recent first); the environment decides lookup results and
persist outcomes. -/

/-- The error cases of `updateRepositoryCache`, one distinct constructor per
`fmt.Errorf` site (plus the Go panic on an empty layer list). -/
inductive RepoCacheErr where
  | panicEmptyLayers
  | parseRef
  | imageIDNotFound (layerID : String)
  | addTagRef
  | parseDigest
  | addDigestRef
  deriving DecidableEq, Repr

/-- Environment of `updateRepositoryCache`: the repository cache's image-ID
lookup and the persist outcome of each `AddReference` call. -/
structure RepoCacheEnv where
  getImageID : String → String
  addRefOK : String → Bool

/-- Modelled from the spec: `repoCache.AddReference` — persist a binding of
the reference (by its canonical string) to the image ID; `none` on a persist
failure, in which case the cache is unchanged. -/
def addReference (env : RepoCacheEnv) (st : List (String × String))
    (key imageID : String) : Option (List (String × String)) :=
  if env.addRefOK key then some ((key, imageID) :: st) else none

/-- Resolve a reference string through the binding list. -/
def lookupBinding (st : List (String × String)) (key : String) : Option String :=
  (st.find? (fun b => b.1 = key)).map Prod.snd

/-- `updateRepositoryCache` from the source: resolve the image ID (looking it
up by the first layer's ID when the orchestrator has none), bind the tag
reference, then bind the digest reference.  Returns (cache state, updated
state, error). -/
def updateRepositoryCache (env : RepoCacheEnv) (st : List (String × String))
    (ic : ImageC) : List (String × String) × ImageC × Option RepoCacheErr :=
  match ic.imageLayers with
  | [] => (st, ic, some .panicEmptyLayers)
  | imageLayer :: _ =>
    let imageLayerID := imageLayer.image.iD
    match parseNamed ic.options.reference with
    | none => (st, ic, some .parseRef)
    | some ref =>
      let ic := if ic.imageID = "" then
          { ic with imageID := env.getImageID imageLayerID } else ic
      if ic.imageID = "" then (st, ic, some (.imageIDNotFound imageLayerID))
      else
        match addReference env st ref.refString ic.imageID with
        | none => (st, ic, some .addTagRef)
        | some st1 =>
          match parseNamed (ref.refName ++ "@" ++ ic.options.manifestDigest) with
          | none => (st1, ic, some .parseDigest)
          | some dig =>
            match addReference env st1 dig.refString ic.imageID with
            | none => (st1, ic, some .addDigestRef)
            | some st2 => (st2, ic, none)

/-! ## WriteImageBlob (source lines 315–357)

The filesystem (`os.Open`, `Stat`, `os.RemoveAll`) and the image-store
writer (`WriteImage`, a collaborator outside `src/`) are modelled as an
environment of call outcomes; the result records whether the destination
directory was removed. -/

/-- Outcomes of the external calls made by `WriteImageBlob`. -/
structure BlobEnv where
  openOK : Bool
  statSize : Option Int
  writeImage : Option String
  removeAll : Option String

/-- Result of `WriteImageBlob`: the error (if any), whether the destination
directory was removed, and which directory that is. -/
structure BlobResult where
  err : Option String := none
  removed : Bool := false
  destination : String := ""
  deriving DecidableEq, Repr

/-- `WriteImageBlob` from the source: open the downloaded tar under the
destination directory, stat it, stream it to the image-store writer, and
remove the whole destination directory afterwards when `cleanup` is set. -/
def WriteImageBlob (env : BlobEnv) (ic : ImageC) (image : ImageWithMeta)
    (cleanup : Bool) : BlobResult :=
  let destination := DestinationDirectory ic.options
  if ¬env.openOK then
    { err := some "Failed to open file", destination := destination }
  else
    match env.statSize with
    | none => { err := some "Failed to stat file", destination := destination }
    | some _ =>
      match env.writeImage with
      | some e =>
        { err := some ("Failed to write to image store: " ++ e)
          destination := destination }
      | none =>
        if cleanup then
          match env.removeAll with
          | some e =>
            { err := some ("Failed to remove download directory: " ++ e)
              removed := true, destination := destination }
          | none => { removed := true, destination := destination }
        else { destination := destination }

/-! ## PullImage (source lines 448–557)

Every network collaborator (host identity, port-layer ping, registry and
auth discovery, token fetch, the two manifest fetches, the layer-download
coordinator) is modelled as an environment of call outcomes; the state
machine of the source is reproduced phase by phase, including the quirk that
a false-but-error-free ping returns without an error. -/

/-- The typed fetch errors the source switches on
(`urlfetcher.ImageNotFoundError`, `urlfetcher.TagNotFoundError`, generic). -/
inductive FetchErr where
  | imageNotFound (msg : String)
  | tagNotFound (msg : String)
  | generic (msg : String)
  deriving DecidableEq, Repr

/-- The message of a fetch error. -/
def FetchErr.msg : FetchErr → String
  | .imageNotFound m => m
  | .tagNotFound m => m
  | .generic m => m

/-- Outcomes of the external calls made by `PullImage`, in call order. -/
structure PullEnv where
  uuid : Except String String
  ping : Except String Bool
  learnRegistryURL : Except String String
  learnAuthURL : Except FetchErr (Option String)
  fetchToken : Except String Token
  fetchManifest1 : Except FetchErr (FetchedManifest × String)
  fetchManifest2 : Except FetchErr (FetchedManifest × String)
  layerCacheGet : LayerCacheGet
  downloadLayers : Option String

/-- `PullImage` from the source: the sequential pull state machine.  Returns
the final (mutated) state together with the error, exactly as the Go method
leaves its receiver mutated when it returns an error. -/
def PullImage (env : PullEnv) (ic : ImageC) : ImageC × Option String :=
  match ParseReference ic with
  | (ic, some e) => (ic, some e)
  | (ic, none) =>
  match env.uuid with
  | .error e => (ic, some e)
  | .ok host =>
  let ic := { ic with options := { ic.options with storename := host } }
  match env.ping with
  | .error e => (ic, some e)
  | .ok false => (ic, none)
  | .ok true =>
  match env.learnRegistryURL with
  | .error e => (ic, some e)
  | .ok reg =>
  let ic := { ic with options := { ic.options with registry := reg } }
  match env.learnAuthURL with
  | .error (.imageNotFound _) =>
    (ic, some ("Error: image " ++ ic.options.reference ++ " not found"))
  | .error e => (ic, some ("Failed to obtain OAuth endpoint: " ++ e.msg))
  | .ok authURL =>
  let tokenStep : Except String ImageC :=
    match authURL with
    | none => .ok ic
    | some _ =>
      match env.fetchToken with
      | .error e => .error e
      | .ok t => .ok { ic with options := { ic.options with token := some t } }
  match tokenStep with
  | .error e => (ic, some e)
  | .ok ic =>
  match env.fetchManifest1 with
  | .error (.imageNotFound _) =>
    (ic, some ("Error: image " ++ ic.options.image ++ " not found"))
  | .error (.tagNotFound _) =>
    (ic, some ("Tag " ++ ic.options.tag ++ " not found in repository " ++
      ic.options.image))
  | .error (.generic m) =>
    (ic, some ("Error while pulling image manifest: " ++ m))
  | .ok (mv, digest) =>
  match mv with
  | .schema2 _ => (ic, some "Error pulling manifest schema 1")
  | .schema1 schema1 =>
  let ic := { ic with options := { ic.options with
      imageManifestSchema1 := some schema1, manifestDigest := digest } }
  let ic :=
    match env.fetchManifest2 with
    | .ok (.schema2 m2, digest2) =>
      { ic with options := { ic.options with
          imageManifestSchema2 := some m2, manifestDigest := digest2 } }
    | _ => ic
  match LayersToDownload ic.options.storename env.layerCacheGet schema1 with
  | .error e => (ic, some e)
  | .ok layers =>
  let ic := { ic with imageLayers := layers }
  match env.downloadLayers with
  | some e => (ic, some e)
  | none => (ic, none)

/-! # Theorems -/

/-- C6: `ParseReference` resolves `"busybox"` to {default registry host,
`"library/busybox"`, `"latest"`} and `"myregistry.example.com:5000/app:v2"`
to {host `"myregistry.example.com:5000"`, repo `"app"`, tag `"v2"`}; in
general the registry host defaults to `DefaultDockerURL` when the parsed
host equals the default marker, and the tag defaults to the default tag when
the reference names only a repository. -/
theorem C6_parse_reference_resolution :
    (((ParseReference { options := { reference := "busybox" } }).1.options.registry
        = DefaultDockerURL ∧
      (ParseReference { options := { reference := "busybox" } }).1.options.image
        = "library/busybox" ∧
      (ParseReference { options := { reference := "busybox" } }).1.options.tag
        = "latest")
   ∧ ((ParseReference
        { options := { reference := "myregistry.example.com:5000/app:v2" } }).1.options.registry
        = "myregistry.example.com:5000" ∧
      (ParseReference
        { options := { reference := "myregistry.example.com:5000/app:v2" } }).1.options.image
        = "app" ∧
      (ParseReference
        { options := { reference := "myregistry.example.com:5000/app:v2" } }).1.options.tag
        = "v2"))
  ∧ (∀ (ic : ImageC) (ref : ParsedNamed), parseNamed ic.options.reference = some ref →
      (ref.hostname = DefaultHostname →
        (ParseReference ic).1.options.registry = DefaultDockerURL)
    ∧ (isNameOnly ref = true → (ParseReference ic).1.options.tag = DefaultTag)) := by
  refine ⟨by decide, ?_⟩
  intro ic ref h
  constructor
  · intro hh
    simp [ParseReference, h, hh]
  · intro ht
    simp [ParseReference, h, ht]

/-- Witness for C6: the general default rules applied at the concrete
reference `"busybox"`. -/
theorem C6_witness :
    (ParseReference { options := { reference := "busybox" } }).1.options.registry
      = DefaultDockerURL ∧
    (ParseReference { options := { reference := "busybox" } }).1.options.tag
      = DefaultTag := by
  have h := C6_parse_reference_resolution.2 { options := { reference := "busybox" } }
    ⟨DefaultHostname, "library/busybox", none, none⟩ (by decide)
  exact ⟨h.1 rfl, h.2 (by decide)⟩

/-- C10: when the reference string fails to parse, `ParseReference` returns
the parse error and leaves the options state entirely unchanged — in
particular the `Tag`, `Registry` and `Image` fields keep their prior
values. -/
theorem C10_parse_reference_atomic (ic : ImageC)
    (h : parseNamed ic.options.reference = none) :
    (ParseReference ic).1 = ic ∧ (ParseReference ic).2.isSome := by
  simp [ParseReference, h]

/-- Witness for C10: the empty reference fails to parse and the prior
`Tag`/`Registry`/`Image` values survive. -/
theorem C10_witness :
    (ParseReference { options := { reference := "", tag := "t0", registry := "r0", image := "i0" } }).1
      = { options := { reference := "", tag := "t0", registry := "r0", image := "i0" } } ∧
    (ParseReference { options := { reference := "", tag := "t0", registry := "r0", image := "i0" } }).2.isSome :=
  C10_parse_reference_atomic
    { options := { reference := "", tag := "t0", registry := "r0", image := "i0" } }
    (by decide)

/-- C9: `WriteImageBlob` attempts removal of the destination directory only
when the cleanup flag is set and the tar stream was successfully written to
the image store; on every failure path (source tar missing/unreadable, stat
failure, store-writer error) it returns an error and does not touch the
destination directory. -/
theorem C9_write_image_blob_cleanup (env : BlobEnv) (ic : ImageC)
    (img : ImageWithMeta) (cleanup : Bool) :
    ((WriteImageBlob env ic img cleanup).removed = true →
        cleanup = true ∧ env.openOK = true ∧ env.statSize.isSome ∧
        env.writeImage = none)
  ∧ (env.openOK = false →
      (WriteImageBlob env ic img cleanup).err.isSome ∧
      (WriteImageBlob env ic img cleanup).removed = false)
  ∧ (env.statSize = none →
      (WriteImageBlob env ic img cleanup).err.isSome ∧
      (WriteImageBlob env ic img cleanup).removed = false)
  ∧ (∀ e, env.writeImage = some e →
      (WriteImageBlob env ic img cleanup).err.isSome ∧
      (WriteImageBlob env ic img cleanup).removed = false) := by
  obtain ⟨o, st, w, r⟩ := env
  cases o <;> cases st <;> cases w <;> cases cleanup <;> cases r <;>
    simp [WriteImageBlob]

/-- Witness for C9: a fully successful cleanup-run removes the directory,
and each failing collaborator outcome yields an error without removal. -/
theorem C9_witness :
    (true = true ∧ (⟨true, some 7, none, none⟩ : BlobEnv).openOK = true ∧
      (⟨true, some 7, none, none⟩ : BlobEnv).statSize.isSome ∧
      (⟨true, some 7, none, none⟩ : BlobEnv).writeImage = none)
  ∧ ((WriteImageBlob ⟨false, some 7, none, none⟩ {} {} true).err.isSome ∧
      (WriteImageBlob ⟨false, some 7, none, none⟩ {} {} true).removed = false)
  ∧ ((WriteImageBlob ⟨true, some 7, some "boom", none⟩ {} {} true).err.isSome ∧
      (WriteImageBlob ⟨true, some 7, some "boom", none⟩ {} {} true).removed = false) := by
  refine ⟨?_, ?_, ?_⟩
  · exact (C9_write_image_blob_cleanup ⟨true, some 7, none, none⟩ {} {} true).1 (by decide)
  · exact (C9_write_image_blob_cleanup ⟨false, some 7, none, none⟩ {} {} true).2.1 rfl
  · exact (C9_write_image_blob_cleanup ⟨true, some 7, some "boom", none⟩ {} {} true).2.2.2
      "boom" rfl

/-! ## Path lemmas for C8 -/

theorem splitOnChar_not_mem (c : Char) (s : List Char) (h : c ∉ s) :
    splitOnChar c s = [s] := by
  induction s with
  | nil => rfl
  | cons x xs ih =>
    rw [List.mem_cons, not_or] at h
    rw [splitOnChar, if_neg (fun hx => h.1 hx.symm), ih h.2]

theorem splitOnChar_append (c : Char) (s t : List Char) (h : c ∉ s) :
    splitOnChar c (s ++ c :: t) = s :: splitOnChar c t := by
  induction s with
  | nil => simp [splitOnChar]
  | cons x xs ih =>
    rw [List.mem_cons, not_or] at h
    rw [List.cons_append, splitOnChar, if_neg (fun hx => h.1 hx.symm), ih h.2]

theorem splitOnChar_intercalateChar (c : Char) (segs : List (List Char))
    (hne : segs ≠ []) (hfree : ∀ s ∈ segs, c ∉ s) :
    splitOnChar c (intercalateChar c segs) = segs := by
  induction segs with
  | nil => exact absurd rfl hne
  | cons s rest ih =>
    cases rest with
    | nil => simpa [intercalateChar] using splitOnChar_not_mem c s (hfree s (by simp))
    | cons s2 r2 =>
      show splitOnChar c (s ++ c :: intercalateChar c (s2 :: r2)) = _
      rw [splitOnChar_append c s _ (hfree s (by simp)),
        ih (by simp) (fun x hx => hfree x (List.mem_cons_of_mem s hx))]

theorem cleanSegsAux_plain (rooted : Bool) (acc : List (List Char))
    (segs : List (List Char))
    (h : ∀ s ∈ segs, s ≠ [] ∧ s ≠ ['.'] ∧ s ≠ ['.', '.']) :
    cleanSegsAux rooted acc segs = acc.reverse ++ segs := by
  induction segs generalizing acc with
  | nil => simp [cleanSegsAux]
  | cons s rest ih =>
    obtain ⟨h1, h2, h3⟩ := h s (by simp)
    have step : cleanSegsAux rooted acc (s :: rest)
        = cleanSegsAux rooted (s :: acc) rest := by
      rw [cleanSegsAux.eq_def]
      simp only []
      rw [if_neg (by simp [h1, h2]), if_neg h3]
    rw [step, ih (s :: acc) (fun x hx => h x (List.mem_cons_of_mem s hx))]
    simp

theorem intercalateChar_head? (c : Char) (s : List Char) (rest : List (List Char))
    (hs : s ≠ []) : (intercalateChar c (s :: rest)).head? = s.head? := by
  cases rest with
  | nil => rfl
  | cons s2 r2 =>
    show (s ++ c :: intercalateChar c (s2 :: r2)).head? = _
    cases s with
    | nil => exact absurd rfl hs
    | cons a s' => rfl

/-- The components accepted by the amended C8: non-empty, slash-free, and
not a dot segment. -/
def PlainSeg (s : String) : Prop :=
  s ≠ "" ∧ '/' ∉ s.data ∧ s ≠ "." ∧ s ≠ ".."

instance (s : String) : Decidable (PlainSeg s) := by
  unfold PlainSeg; infer_instance

theorem string_data_inj (s t : String) (h : s.data = t.data) : s = t := by
  cases s with
  | mk d1 =>
    cases t with
    | mk d2 => exact congrArg String.mk (by simpa using h)

theorem plainSeg_data (s : String) (h : PlainSeg s) :
    s.data ≠ [] ∧ '/' ∉ s.data ∧ s.data ≠ ['.'] ∧ s.data ≠ ['.', '.'] := by
  obtain ⟨h1, h2, h3, h4⟩ := h
  refine ⟨?_, h2, ?_, ?_⟩
  · intro hd; exact h1 (string_data_inj s "" hd)
  · intro hd; exact h3 (string_data_inj s "." hd)
  · intro hd; exact h4 (string_data_inj s ".." hd)

theorem pathCleanChars_plain (segs : List (List Char)) (hne : segs ≠ [])
    (h : ∀ s ∈ segs, s ≠ [] ∧ '/' ∉ s ∧ s ≠ ['.'] ∧ s ≠ ['.', '.']) :
    pathCleanChars (intercalateChar '/' segs) = intercalateChar '/' segs := by
  have hhead : ((intercalateChar '/' segs).head? == some '/') = false := by
    cases segs with
    | nil => exact absurd rfl hne
    | cons s rest =>
      have h1 := (h s (by simp)).1
      have h2 := (h s (by simp)).2.1
      rw [intercalateChar_head? '/' s rest h1]
      cases s with
      | nil => exact absurd rfl h1
      | cons a s' =>
        have ha : a ≠ '/' := fun e => h2 (by rw [e]; simp)
        simp [ha]
  have hsplit := splitOnChar_intercalateChar '/' segs hne (fun s hs => (h s hs).2.1)
  have hclean := cleanSegsAux_plain false [] segs
    (fun s hs => ⟨(h s hs).1, (h s hs).2.2.1, (h s hs).2.2.2⟩)
  simp only [pathCleanChars]
  rw [hsplit, hhead, hclean]
  simp only [List.reverse_nil, List.nil_append]
  cases segs with
  | nil => exact absurd rfl hne
  | cons s rest => simp

theorem pathJoin_plain (parts : List String) (hne : parts ≠ [])
    (h : ∀ p ∈ parts, PlainSeg p) :
    pathJoin parts = String.mk (intercalateChar '/' (parts.map String.data)) := by
  have hsegs : ∀ s ∈ parts.map String.data,
      s ≠ [] ∧ '/' ∉ s ∧ s ≠ ['.'] ∧ s ≠ ['.', '.'] := by
    intro s hs
    obtain ⟨p, hp, rfl⟩ := List.mem_map.1 hs
    exact plainSeg_data p (h p hp)
  have hdrop : parts.dropWhile (fun p => p = "") = parts := by
    cases parts with
    | nil => rfl
    | cons p rest =>
      have hp := (h p (by simp)).1
      simp [List.dropWhile_cons, hp]
  rw [pathJoin.eq_def, hdrop]
  cases parts with
  | nil => exact absurd rfl hne
  | cons p rest =>
    show pathClean (String.mk (intercalateChar '/' ((p :: rest).map String.data))) = _
    rw [pathClean]
    show String.mk (pathCleanChars (intercalateChar '/' ((p :: rest).map String.data))) = _
    rw [pathCleanChars_plain _ (by simp) hsegs]

/-- C8 counterexample: two registry strings that parse to distinct
(scheme, host, path) tuples but produce the identical destination
directory — `path.Join` collapses the empty component, so distinct tuples
collide and the claimed injectivity fails. -/
theorem C8_counterexample :
    DestinationDirectory { destination := "images", registry := "s://h", image := "i", tag := "t" }
      = DestinationDirectory { destination := "images", registry := "s:///h", image := "i", tag := "t" }
    ∧ urlParse "s://h" ≠ urlParse "s:///h" := by decide

/-- C8 amended: `DestinationDirectory` is a pure deterministic function of
{destination, registry, image, tag} (no other option influences it), and,
for component tuples whose scheme, host, path, image and tag are non-empty,
slash-free non-dot segments (and a destination of the same shape), no two
distinct tuples yield the same output path. -/
theorem C8_destination_deterministic_injective :
    (∀ o1 o2 : Options, o1.destination = o2.destination → o1.registry = o2.registry →
      o1.image = o2.image → o1.tag = o2.tag →
      DestinationDirectory o1 = DestinationDirectory o2)
  ∧ (∀ d s1 h1 p1 i1 t1 s2 h2 p2 i2 t2 : String,
      PlainSeg d → PlainSeg s1 → PlainSeg h1 → PlainSeg p1 → PlainSeg i1 →
      PlainSeg t1 → PlainSeg s2 → PlainSeg h2 → PlainSeg p2 → PlainSeg i2 →
      PlainSeg t2 →
      destinationParts d s1 h1 p1 i1 t1 = destinationParts d s2 h2 p2 i2 t2 →
      s1 = s2 ∧ h1 = h2 ∧ p1 = p2 ∧ i1 = i2 ∧ t1 = t2) := by
  constructor
  · intro o1 o2 hd hr hi ht
    unfold DestinationDirectory
    rw [hd, hr, hi, ht]
  · intro d s1 h1 p1 i1 t1 s2 h2 p2 i2 t2 hd hs1 hh1 hp1 hi1 ht1 hs2 hh2 hp2 hi2 ht2 heq
    unfold destinationParts at heq
    rw [pathJoin_plain [d, s1, h1, p1, i1, t1] (by simp)
        (by intro p hp; simp at hp; rcases hp with rfl | rfl | rfl | rfl | rfl | rfl <;>
          assumption),
      pathJoin_plain [d, s2, h2, p2, i2, t2] (by simp)
        (by intro p hp; simp at hp; rcases hp with rfl | rfl | rfl | rfl | rfl | rfl <;>
          assumption)] at heq
    have hdata := congrArg String.data heq
    simp only [String.data] at hdata
    have hsplit := congrArg (splitOnChar '/') hdata
    rw [splitOnChar_intercalateChar '/' _ (by simp)
        (by intro s hs; simp at hs; rcases hs with rfl | rfl | rfl | rfl | rfl | rfl <;>
          first
            | exact (plainSeg_data d hd).2.1
            | exact (plainSeg_data s1 hs1).2.1
            | exact (plainSeg_data h1 hh1).2.1
            | exact (plainSeg_data p1 hp1).2.1
            | exact (plainSeg_data i1 hi1).2.1
            | exact (plainSeg_data t1 ht1).2.1),
      splitOnChar_intercalateChar '/' _ (by simp)
        (by intro s hs; simp at hs; rcases hs with rfl | rfl | rfl | rfl | rfl | rfl <;>
          first
            | exact (plainSeg_data d hd).2.1
            | exact (plainSeg_data s2 hs2).2.1
            | exact (plainSeg_data h2 hh2).2.1
            | exact (plainSeg_data p2 hp2).2.1
            | exact (plainSeg_data i2 hi2).2.1
            | exact (plainSeg_data t2 ht2).2.1)] at hsplit
    simp only [List.map_cons, List.map_nil, List.cons.injEq, and_true] at hsplit
    obtain ⟨-, e1, e2, e3, e4, e5⟩ := hsplit
    exact ⟨string_data_inj _ _ e1, string_data_inj _ _ e2, string_data_inj _ _ e3,
      string_data_inj _ _ e4, string_data_inj _ _ e5⟩

/-- Witness for C8: the injectivity clause applied at concrete distinct
plain tuples, and the dependency clause at concrete options. -/
theorem C8_witness :
    ("https" = "https" ∧ "a" = "a" ∧ "v2" = "v2" ∧ "app" = "app" ∧ "v" = "v") := by
  have h := C8_destination_deterministic_injective.2 "images" "https" "a" "v2" "app" "v"
    "https" "a" "v2" "app" "v"
    (by decide) (by decide) (by decide) (by decide) (by decide) (by decide)
    (by decide) (by decide) (by decide) (by decide) (by decide) rfl
  exact h

/-! ## C7: layer-cache substitution in LayersToDownload -/

theorem layersLoop_subst (storename : String) (cacheGet : LayerCacheGet)
    (entries : List (HistoryEntry × FSLayer)) :
    layersLoop storename cacheGet entries =
      (layersLoop storename noLayerCache entries).map
        (fun p => (p.1, p.2.map (substCached cacheGet))) := by
  induction entries with
  | nil => rfl
  | cons e rest ih =>
    obtain ⟨history, layer⟩ := e
    rw [layersLoop, layersLoop, ih]
    cases layersLoop storename noLayerCache rest with
    | error msg => rfl
    | ok p =>
      cases hm : history.v1Compatibility with
      | none => rfl
      | some doc =>
        simp only [Except.map, Except.bind, bind, substCached, noLayerCache, hm,
          List.map_cons]

/-- C7: for each manifest index, `LayersToDownload` keeps the freshly
constructed record unless the layer cache holds an entry for the fresh
record's local image ID that is not itself mid-download, in which case the
cached record is substituted at that index: the result equals the
substitution map applied pointwise to the cache-free construction. -/
theorem C7_layer_cache_substitution (storename : String) (cacheGet : LayerCacheGet)
    (m : Manifest) :
    (LayersToDownload storename cacheGet m =
      (LayersToDownload storename noLayerCache m).map (List.map (substCached cacheGet)))
  ∧ (∀ (r c : ImageWithMeta), cacheGet r.image.iD = some c → c.downloading = false →
      substCached cacheGet r = c)
  ∧ (∀ (r c : ImageWithMeta), cacheGet r.image.iD = some c → c.downloading = true →
      substCached cacheGet r = r)
  ∧ (∀ r : ImageWithMeta, cacheGet r.image.iD = none → substCached cacheGet r = r) := by
  refine ⟨?_, ?_, ?_, ?_⟩
  · unfold LayersToDownload
    rw [layersLoop_subst storename cacheGet m.entries]
    cases layersLoop storename noLayerCache m.entries with
    | error msg => rfl
    | ok p => rfl
  · intro r c hc hd; simp [substCached, hc, hd]
  · intro r c hc hd; simp [substCached, hc, hd]
  · intro r hc; simp [substCached, hc]

/-- Witness for C7: a concrete completed cache entry is substituted for the
fresh record with the same local image ID. -/
theorem C7_witness :
    substCached
      (fun id => if id = "a" then some { image := { iD := "a", parent := "scratch", store := "st" }, diffID := "sha256:d" } else none)
      { image := { iD := "a", parent := "scratch", store := "st" } }
      = { image := { iD := "a", parent := "scratch", store := "st" }, diffID := "sha256:d" } :=
  (C7_layer_cache_substitution "st"
      (fun id => if id = "a" then some { image := { iD := "a", parent := "scratch", store := "st" }, diffID := "sha256:d" } else none)
      {}).2.1
    { image := { iD := "a", parent := "scratch", store := "st" } }
    { image := { iD := "a", parent := "scratch", store := "st" }, diffID := "sha256:d" }
    (by decide) rfl

/-! ## C1: determinism of CreateImageConfig -/

/-- Forget the in-progress (`Downloading`) flag of a record. -/
def eraseDownloading (r : ImageWithMeta) : ImageWithMeta := { r with downloading := false }

theorem buildLoop_erase (l : List ImageWithMeta) :
    buildLoop (l.map eraseDownloading) = buildLoop l := by
  induction l with
  | nil => rfl
  | cons r rest ih =>
    rw [List.map_cons, buildLoop, buildLoop, ih]
    rfl

/-- C1: the result of `CreateImageConfig` — in particular the computed image
ID — is a deterministic function of the layer chain's content: chains equal
in every field except the records' in-progress (`Downloading`) flags produce
identical results, and with reflexive agreement this includes that repeated
computation over the same chain yields the identical image ID. -/
theorem C1_image_id_deterministic (repoGet : RepoGetImageID) (imgGet : ImageCacheGet)
    (ic : ImageC) (l1 l2 : List ImageWithMeta)
    (h : l1.map eraseDownloading = l2.map eraseDownloading) :
    CreateImageConfig repoGet imgGet ic l1 = CreateImageConfig repoGet imgGet ic l2 := by
  have hb : buildLoop l1 = buildLoop l2 := by
    rw [← buildLoop_erase l1, h, buildLoop_erase]
  cases l1 with
  | nil =>
    cases l2 with
    | nil => rfl
    | cons r2 t2 => simp at h
  | cons r1 t1 =>
    cases l2 with
    | nil => simp at h
    | cons r2 t2 =>
      simp only [List.map_cons, List.cons.injEq] at h
      have hid : r1.image.iD = r2.image.iD :=
        congrArg (fun r => r.image.iD) h.1
      rw [CreateImageConfig.eq_def, CreateImageConfig.eq_def]
      simp only []
      rw [hid, hb]

/-- Witness for C1: two one-record chains differing only in the
`Downloading` flag produce the identical image configuration. -/
theorem C1_witness :
    CreateImageConfig (fun _ => "") (fun _ => none)
      { options := { imageManifestSchema1 := some { entries := [] } } }
      [{ image := { iD := "a" }, diffID := "sha256:d", meta := some {}, downloading := true }]
    = CreateImageConfig (fun _ => "") (fun _ => none)
      { options := { imageManifestSchema1 := some { entries := [] } } }
      [{ image := { iD := "a" }, diffID := "sha256:d", meta := some {}, downloading := false }] :=
  C1_image_id_deterministic (fun _ => "") (fun _ => none)
    { options := { imageManifestSchema1 := some { entries := [] } } }
    [{ image := { iD := "a" }, diffID := "sha256:d", meta := some {}, downloading := true }]
    [{ image := { iD := "a" }, diffID := "sha256:d", meta := some {}, downloading := false }]
    (by decide)

/-! ## C3: empty-layer contributions in the CreateImageConfig chain walk -/

/-- C3: in the chain walk of `CreateImageConfig` (`buildLoop`, which steps
the layer list from oldest to newest), a record whose diff ID equals the
well-known empty-layer digest contributes exactly one history entry marked
as an empty layer and no element of the root-filesystem diff-ID list, while
every other record contributes one unmarked history entry and exactly one
diff ID, appended in oldest-to-newest order. -/
theorem C3_empty_layer_contributions (images : List ImageWithMeta)
    (v1 : V1Image) (rootFS : RootFS) (history : List DockerHistory) (size : Int)
    (h : buildLoop images = .ok (v1, rootFS, history, size)) :
    rootFS.diffIDs =
      (images.reverse.filter (fun r => r.diffID != DigestSHA256EmptyTar)).map
        (fun r => r.diffID)
  ∧ history.map (fun hh => hh.emptyLayer) =
      images.reverse.map (fun r => r.diffID == DigestSHA256EmptyTar)
  ∧ history.length = images.length := by
  induction images generalizing v1 rootFS history size with
  | nil =>
    simp only [buildLoop, Except.ok.injEq, Prod.mk.injEq] at h
    obtain ⟨-, h2, h3, -⟩ := h
    subst h2; subst h3
    simp [NewRootFS]
  | cons r rest ih =>
    rw [buildLoop] at h
    cases hrest : buildLoop rest with
    | error msg => rw [hrest] at h; exact absurd h (by simp [Except.bind, bind])
    | ok p =>
      obtain ⟨iv, rf, hist, sz⟩ := p
      rw [hrest] at h
      simp only [Except.bind, bind] at h
      cases hm : r.meta with
      | none => rw [hm] at h; exact absurd h (by simp)
      | some doc =>
        rw [hm] at h
        obtain ⟨hdiff, hhist, hlen⟩ := ih iv rf hist sz hrest
        by_cases hd : r.diffID = DigestSHA256EmptyTar
        · simp only [hd, if_pos rfl, Except.ok.injEq, Prod.mk.injEq] at h
          obtain ⟨-, h2, h3, -⟩ := h
          subst h2; subst h3
          refine ⟨?_, ?_, ?_⟩
          · simpa [hd] using hdiff
          · simp [hd, hhist]
          · simp [hlen]
        · simp only [if_neg hd, Except.ok.injEq, Prod.mk.injEq] at h
          obtain ⟨-, h2, h3, -⟩ := h
          subst h2; subst h3
          refine ⟨?_, ?_, ?_⟩
          · simp [hd, hdiff]
          · simp [hd, hhist]
          · simp [hlen]

/-- Witness for C3, the spec's scenario: a two-layer chain whose top layer
has the empty-layer diff ID yields a root-filesystem diff-ID list of length
one and a history of length two, the top entry marked empty. -/
theorem C3_witness :
    (({ diffIDs := ["sha256:d1"] } : RootFS).diffIDs =
      (([{ image := { iD := "top" }, diffID := DigestSHA256EmptyTar, meta := some {} },
          { image := { iD := "base" }, diffID := "sha256:d1", meta := some {} }] :
          List ImageWithMeta).reverse.filter
            (fun r => r.diffID != DigestSHA256EmptyTar)).map (fun r => r.diffID))
  ∧ (([{}, { emptyLayer := true }] : List DockerHistory).map (fun hh => hh.emptyLayer) =
      ([{ image := { iD := "top" }, diffID := DigestSHA256EmptyTar, meta := some {} },
         { image := { iD := "base" }, diffID := "sha256:d1", meta := some {} }] :
         List ImageWithMeta).reverse.map (fun r => r.diffID == DigestSHA256EmptyTar))
  ∧ ([{}, { emptyLayer := true }] : List DockerHistory).length =
      ([{ image := { iD := "top" }, diffID := DigestSHA256EmptyTar, meta := some {} },
        { image := { iD := "base" }, diffID := "sha256:d1", meta := some {} }] :
        List ImageWithMeta).length :=
  C3_empty_layer_contributions
    [{ image := { iD := "top" }, diffID := DigestSHA256EmptyTar, meta := some {} },
     { image := { iD := "base" }, diffID := "sha256:d1", meta := some {} }]
    {} { diffIDs := ["sha256:d1"] } [{}, { emptyLayer := true }] 0 rfl

/-! ## C2: manifest-to-layer-record construction -/

/-- The per-layer document of one manifest entry. -/
def entryDoc (e : HistoryEntry × FSLayer) : Option V1CompatDoc := e.1.v1Compatibility

/-- The local image ID named by one manifest entry (empty when absent). -/
def entryID (e : HistoryEntry × FSLayer) : String :=
  ((entryDoc e).bind (fun d => d.id)).getD ""

/-- The image-ID column of a manifest's entries. -/
def docIDs (entries : List (HistoryEntry × FSLayer)) : List String :=
  entries.map entryID

/-- The parent the spec prescribes for one entry: the entry's own parent
field, or the `"scratch"` sentinel when that field is empty or absent. -/
def resolvedParent (e : HistoryEntry × FSLayer) : String :=
  match (entryDoc e).bind (fun d => d.parent) with
  | some p => if p ≠ "" then p else "scratch"
  | none => "scratch"

/-- Well-linkedness of a (newest-first) entry list: every document parses
and carries a non-empty id, every entry but the oldest carries a parent
field naming the next-older entry's id, and the oldest entry's parent is
absent or empty. -/
def wfEntries : List (HistoryEntry × FSLayer) → Bool
  | [] => true
  | [e] =>
    match entryDoc e with
    | some d => d.id.getD "" != "" && (d.parent == none || d.parent == some "")
    | none => false
  | e :: e2 :: rest =>
    (match entryDoc e, entryDoc e2 with
     | some d, some d2 =>
       d.id.getD "" != "" && d2.id.getD "" != "" && d.parent == some (d2.id.getD "")
     | _, _ => false) && wfEntries (e2 :: rest)

/-- Walk a record's parent chain through the record list: within `fuel`
hops, either the parent is the `"scratch"` sentinel or the parent names a
record whose own chain terminates. -/
def reachesScratch (recs : List ImageWithMeta) : Nat → ImageWithMeta → Bool
  | 0, r => r.image.parent == "scratch"
  | fuel + 1, r =>
    r.image.parent == "scratch" ||
      (match recs.find? (fun x => x.image.iD == r.image.parent) with
       | some x => reachesScratch recs fuel x
       | none => false)

/-- The (newest-first) record list forms a parent chain: each record's
parent is the next record's id and the last record's parent is
`"scratch"`. -/
def chainedRecs : List ImageWithMeta → Prop
  | [] => True
  | [r] => r.image.parent = "scratch"
  | r :: r2 :: rest => r.image.parent = r2.image.iD ∧ chainedRecs (r2 :: rest)

/-- C2 counterexample: a schema-v1 manifest with one history entry whose
document names itself as its own parent.  `LayersToDownload` performs no
validation and happily returns the record, whose parent chain cycles and
never reaches `"scratch"` within `N = 1` hops — refuting the claim's
universally quantified chain-termination clause. -/
theorem C2_counterexample :
    LayersToDownload "st" noLayerCache
        { entries := [({ v1Compatibility := some { id := some "a", parent := some "a" } }, { blobSum := "b" })] }
      = .ok [{ image := { iD := "a", parent := "a", store := "st" },
               meta := some { id := some "a", parent := some "a" },
               layer := { blobSum := "b" } }]
  ∧ reachesScratch
      [{ image := { iD := "a", parent := "a", store := "st" },
         meta := some { id := some "a", parent := some "a" },
         layer := { blobSum := "b" } }] 1
      { image := { iD := "a", parent := "a", store := "st" },
        meta := some { id := some "a", parent := some "a" },
        layer := { blobSum := "b" } } = false :=
  ⟨rfl, by decide⟩

theorem layersLoop_wf (storename : String) (entries : List (HistoryEntry × FSLayer))
    (hwf : wfEntries entries = true) :
    ∃ v1 recs, layersLoop storename noLayerCache entries = .ok (v1, recs) ∧
      recs.map (fun r => r.meta) = entries.map entryDoc ∧
      recs.map (fun r => r.layer) = entries.map Prod.snd ∧
      recs.map (fun r => r.image.store) = entries.map (fun _ => storename) ∧
      recs.map (fun r => r.image.iD) = docIDs entries ∧
      recs.map (fun r => r.image.parent) = entries.map resolvedParent ∧
      chainedRecs recs := by
  induction entries with
  | nil => exact ⟨{}, [], rfl, rfl, rfl, rfl, rfl, rfl, trivial⟩
  | cons e rest ih =>
    obtain ⟨eh, el⟩ := e
    cases rest with
    | nil =>
      cases hdoc : eh.v1Compatibility with
      | none => rw [wfEntries] at hwf; simp only [entryDoc, hdoc] at hwf; cases hwf
      | some d =>
        rw [wfEntries] at hwf
        simp only [entryDoc, hdoc, Bool.and_eq_true, bne_iff_ne, ne_eq, Bool.or_eq_true,
          beq_iff_eq] at hwf
        obtain ⟨hid, hpar⟩ := hwf
        have hstep : layersLoop storename noLayerCache [(eh, el)]
            = .ok (unmarshalV1 {} d,
              [{ image := { iD := (unmarshalV1 {} d).id
                            parent := if (unmarshalV1 {} d).parent ≠ "" then (unmarshalV1 {} d).parent else "scratch"
                            store := storename }
                 meta := some d
                 layer := el }]) := by
          rw [layersLoop, layersLoop, hdoc]
          rfl
        have hvp : (unmarshalV1 {} d).parent = "" := by
          rcases hpar with hp | hp <;> simp [unmarshalV1, hp]
        refine ⟨_, _, hstep, ?_, rfl, rfl, ?_, ?_, ?_⟩
        · simp [entryDoc, hdoc]
        · simp [docIDs, entryID, entryDoc, hdoc, unmarshalV1]
        · rcases hpar with hp | hp <;>
            simp [resolvedParent, entryDoc, hdoc, hp, hvp]
        · show (if (unmarshalV1 {} d).parent ≠ "" then (unmarshalV1 {} d).parent else "scratch") = "scratch"
          simp [hvp]
    | cons e2 rest2 =>
      obtain ⟨eh2, el2⟩ := e2
      rw [wfEntries] at hwf
      simp only [Bool.and_eq_true] at hwf
      obtain ⟨hwf1, hwf2⟩ := hwf
      cases hdoc : eh.v1Compatibility with
      | none => simp only [entryDoc, hdoc] at hwf1; cases hwf1
      | some d =>
        cases hdoc2 : eh2.v1Compatibility with
        | none => simp only [entryDoc, hdoc, hdoc2] at hwf1; cases hwf1
        | some d2 =>
          simp only [entryDoc, hdoc, hdoc2, Bool.and_eq_true, bne_iff_ne, ne_eq,
            beq_iff_eq] at hwf1
          have hid := hwf1.1.1
          have hid2 := hwf1.1.2
          have hpar := hwf1.2
          obtain ⟨v1r, recs', hloop, hmeta, hlayer, hstore, hids, hpars, hchain⟩ := ih hwf2
          have hvp : (unmarshalV1 v1r d).parent = d2.id.getD "" := by
            simp [unmarshalV1, hpar]
          have hvpne : (unmarshalV1 v1r d).parent ≠ "" := by rw [hvp]; exact hid2
          have hstep : layersLoop storename noLayerCache ((eh, el) :: (eh2, el2) :: rest2)
              = .ok (unmarshalV1 v1r d,
                { image := { iD := (unmarshalV1 v1r d).id
                             parent := if (unmarshalV1 v1r d).parent ≠ "" then (unmarshalV1 v1r d).parent else "scratch"
                             store := storename }
                  meta := some d
                  layer := el } :: recs') := by
            rw [layersLoop, hloop, hdoc]
            rfl
          have hvi : (unmarshalV1 v1r d).id = entryID (eh, el) := by
            cases hdid : d.id with
            | none => rw [hdid] at hid; simp at hid
            | some i => simp [unmarshalV1, entryID, entryDoc, hdoc, hdid]
          refine ⟨_, _, hstep, ?_, ?_, ?_, ?_, ?_, ?_⟩
          · simp only [List.map_cons]
            rw [hmeta]
            simp [entryDoc, hdoc]
          · simp only [List.map_cons]
            rw [hlayer]
            simp
          · simp only [List.map_cons]
            rw [hstore]
            simp
          · simp only [List.map_cons, docIDs] at hids ⊢
            rw [hids, hvi]
          · have hres : resolvedParent (eh, el) = d2.id.getD "" := by
              simp [resolvedParent, entryDoc, hdoc, hpar, hid2]
            simp only [List.map_cons]
            rw [hpars, if_pos hvpne, hvp, hres]
            simp
          · cases recs' with
            | nil => rw [docIDs, List.map_cons] at hids; cases hids
            | cons rh rt =>
              have hrh : rh.image.iD = entryID (eh2, el2) := by
                rw [docIDs, List.map_cons] at hids
                simpa using congrArg (fun l => l.headD "") hids
              have he2 : entryID (eh2, el2) = d2.id.getD "" := by
                simp [entryID, entryDoc, hdoc2]
              refine ⟨?_, hchain⟩
              show (if (unmarshalV1 v1r d).parent ≠ "" then (unmarshalV1 v1r d).parent else "scratch") = rh.image.iD
              rw [if_pos hvpne, hvp, hrh, he2]

theorem reachesScratch_mono (recs : List ImageWithMeta) :
    ∀ m n (r : ImageWithMeta), m ≤ n →
      reachesScratch recs m r = true → reachesScratch recs n r = true := by
  intro m
  induction m with
  | zero =>
    intro n r _ h
    rw [reachesScratch] at h
    cases n with
    | zero => rw [reachesScratch]; exact h
    | succ n2 => rw [reachesScratch, h, Bool.true_or]
  | succ m2 ih =>
    intro n r hmn h
    cases n with
    | zero => exact absurd hmn (by omega)
    | succ n2 =>
      rw [reachesScratch] at h ⊢
      cases hp : r.image.parent == "scratch" with
      | true => rw [Bool.true_or]
      | false =>
        rw [hp, Bool.false_or] at h
        rw [Bool.false_or]
        cases hf : recs.find? (fun x => x.image.iD == r.image.parent) with
        | none => rw [hf] at h; simp at h
        | some x =>
          rw [hf] at h
          exact ih n2 x (by omega) h

theorem chainedRecs_tail (r : ImageWithMeta) (l : List ImageWithMeta)
    (h : chainedRecs (r :: l)) : chainedRecs l := by
  cases l with
  | nil => trivial
  | cons r2 t => exact h.2

theorem chainedRecs_suffix (l s : List ImageWithMeta) (h : chainedRecs l)
    (hs : s <:+ l) : chainedRecs s := by
  induction l with
  | nil => rw [List.suffix_nil.1 hs]; trivial
  | cons r t ih =>
    rcases List.suffix_cons_iff.1 hs with rfl | hs2
    · exact h
    · exact ih (chainedRecs_tail r t h) hs2

theorem reaches_aux (recs : List ImageWithMeta)
    (hnd : (recs.map (fun r => r.image.iD)).Nodup) :
    ∀ (tail : List ImageWithMeta) (r : ImageWithMeta),
      chainedRecs (r :: tail) → (r :: tail) <:+ recs →
      reachesScratch recs (tail.length + 1) r = true := by
  intro tail
  induction tail with
  | nil =>
    intro r hch hsuf
    have hp : (r.image.parent == "scratch") = true := by
      simp only [chainedRecs] at hch
      simp [hch]
    rw [reachesScratch, hp, Bool.true_or]
  | cons r2 t ih =>
    intro r hch hsuf
    obtain ⟨hpar, hch2⟩ := hch
    rw [show (r2 :: t).length + 1 = (t.length + 1) + 1 from rfl, reachesScratch]
    cases hp : r.image.parent == "scratch" with
    | true => rw [Bool.true_or]
    | false =>
      rw [Bool.false_or]
      have hr2mem : r2 ∈ recs := hsuf.subset (by simp)
      have hsuf2 : (r2 :: t) <:+ recs := by
        obtain ⟨pre, hpre⟩ := hsuf
        exact ⟨pre ++ [r], by simpa using hpre⟩
      cases hf : recs.find? (fun x => x.image.iD == r.image.parent) with
      | none =>
        exact absurd (by simp [hpar] : (fun x => x.image.iD == r.image.parent) r2 = true)
          (List.find?_eq_none.1 hf r2 hr2mem)
      | some x =>
        have hx1 : x.image.iD = r.image.parent := by simpa using List.find?_some hf
        have hx2 : x ∈ recs := List.mem_of_find?_eq_some hf
        have hxr2 : x = r2 := List.inj_on_of_nodup_map hnd hx2 hr2mem (by rw [hx1, hpar])
        subst hxr2
        exact ih x hch2 hsuf2

theorem reaches_of_chained (recs : List ImageWithMeta)
    (hnd : (recs.map (fun r => r.image.iD)).Nodup) (hch : chainedRecs recs) :
    ∀ r ∈ recs, reachesScratch recs recs.length r = true := by
  intro r hr
  obtain ⟨pre, post, rfl⟩ := List.append_of_mem hr
  have hsuf : (r :: post) <:+ pre ++ r :: post := ⟨pre, rfl⟩
  have hch2 : chainedRecs (r :: post) := chainedRecs_suffix _ _ hch hsuf
  have h := reaches_aux _ hnd post r hch2 hsuf
  exact reachesScratch_mono _ (post.length + 1) (pre ++ r :: post).length r
    (by simp) h

/-- C2 amended: for every schema-v1 manifest whose history documents all
parse, carry non-empty pairwise-distinct ids, and link each entry's parent
field to the next-older entry's id (the oldest entry's parent empty or
absent), and in the absence of layer-cache hits, `LayersToDownload` returns
exactly one record per manifest entry, index-aligned — the record at index
`i` carries the document, FS-layer, id and store of entry `i`, its parent is
the entry's parent id or the `"scratch"` sentinel when that field is empty
or absent — and every record's parent chain reaches `"scratch"` within `N`
hops (hence is cycle-free). -/
theorem C2_layers_to_download (storename : String) (m : Manifest)
    (hwf : wfEntries m.entries = true) (hnd : (docIDs m.entries).Nodup) :
    ∃ recs, LayersToDownload storename noLayerCache m = .ok recs ∧
      recs.length = m.entries.length ∧
      recs.map (fun r => r.meta) = m.entries.map entryDoc ∧
      recs.map (fun r => r.layer) = m.entries.map Prod.snd ∧
      recs.map (fun r => r.image.store) = m.entries.map (fun _ => storename) ∧
      recs.map (fun r => r.image.iD) = docIDs m.entries ∧
      recs.map (fun r => r.image.parent) = m.entries.map resolvedParent ∧
      ∀ r ∈ recs, reachesScratch recs recs.length r = true := by
  obtain ⟨v1, recs, hloop, hmeta, hlayer, hstore, hids, hpars, hchain⟩ :=
    layersLoop_wf storename m.entries hwf
  refine ⟨recs, ?_, ?_, hmeta, hlayer, hstore, hids, hpars, ?_⟩
  · unfold LayersToDownload
    rw [hloop]
    rfl
  · have := congrArg List.length hmeta
    simpa using this
  · refine reaches_of_chained recs ?_ hchain
    rw [hids]
    exact hnd

/-- Witness for C2: a well-linked two-entry manifest yields two
index-aligned records whose chains reach scratch. -/
theorem C2_witness :
    ∃ recs, LayersToDownload "st" noLayerCache
        { entries := [({ v1Compatibility := some { id := some "b", parent := some "a" } }, { blobSum := "bs0" }),
                      ({ v1Compatibility := some { id := some "a" } }, { blobSum := "bs1" })] }
      = .ok recs ∧
      recs.length = 2 ∧
      recs.map (fun r => r.meta) =
        [some { id := some "b", parent := some "a" }, some { id := some "a" }] ∧
      recs.map (fun r => r.layer) = [{ blobSum := "bs0" }, { blobSum := "bs1" }] ∧
      recs.map (fun r => r.image.store) = ["st", "st"] ∧
      recs.map (fun r => r.image.iD) = ["b", "a"] ∧
      recs.map (fun r => r.image.parent) = ["a", "scratch"] ∧
      ∀ r ∈ recs, reachesScratch recs recs.length r = true := by
  obtain ⟨recs, h1, h2, h3, h4, h5, h6, h7, h8⟩ := C2_layers_to_download "st"
    { entries := [({ v1Compatibility := some { id := some "b", parent := some "a" } }, { blobSum := "bs0" }),
                  ({ v1Compatibility := some { id := some "a" } }, { blobSum := "bs1" })] }
    (by decide) (by decide)
  exact ⟨recs, h1, h2, h3, h4, h5, h6, h7, h8⟩

/-! ## C5: repository-cache synchronisation -/

/-- C5: `updateRepositoryCache` on a non-empty layer list: when the
orchestrator's image ID is empty it is looked up by the first layer's ID and
a still-empty result is a fatal error before any binding; a tag-binding
failure leaves the cache untouched; a digest-binding failure returns its own
distinct error while the already-persisted tag binding stays in place; and
after full success both the tag reference and the digest reference resolve
to the same image ID.  (Each failure is a distinct `RepoCacheErr`
constructor.) -/
theorem C5_update_repository_cache (env : RepoCacheEnv) (st : List (String × String))
    (ic : ImageC) (layer0 : ImageWithMeta) (rest : List ImageWithMeta) (ref : ParsedNamed)
    (hl : ic.imageLayers = layer0 :: rest)
    (hr : parseNamed ic.options.reference = some ref) :
    ((ic.imageID = "" → env.getImageID layer0.image.iD = "" →
        (updateRepositoryCache env st ic).2.2 = some (.imageIDNotFound layer0.image.iD) ∧
        (updateRepositoryCache env st ic).1 = st))
  ∧ ((if ic.imageID = "" then env.getImageID layer0.image.iD else ic.imageID) ≠ "" →
      env.addRefOK ref.refString = false →
        (updateRepositoryCache env st ic).2.2 = some .addTagRef ∧
        (updateRepositoryCache env st ic).1 = st)
  ∧ (∀ dig : ParsedNamed,
      (if ic.imageID = "" then env.getImageID layer0.image.iD else ic.imageID) ≠ "" →
      env.addRefOK ref.refString = true →
      parseNamed (ref.refName ++ "@" ++ ic.options.manifestDigest) = some dig →
      env.addRefOK dig.refString = false →
        (updateRepositoryCache env st ic).2.2 = some .addDigestRef ∧
        lookupBinding (updateRepositoryCache env st ic).1 ref.refString =
          some (if ic.imageID = "" then env.getImageID layer0.image.iD else ic.imageID))
  ∧ (∀ dig : ParsedNamed,
      (if ic.imageID = "" then env.getImageID layer0.image.iD else ic.imageID) ≠ "" →
      env.addRefOK ref.refString = true →
      parseNamed (ref.refName ++ "@" ++ ic.options.manifestDigest) = some dig →
      env.addRefOK dig.refString = true →
        (updateRepositoryCache env st ic).2.2 = none ∧
        lookupBinding (updateRepositoryCache env st ic).1 ref.refString =
          some (if ic.imageID = "" then env.getImageID layer0.image.iD else ic.imageID) ∧
        lookupBinding (updateRepositoryCache env st ic).1 dig.refString =
          some (if ic.imageID = "" then env.getImageID layer0.image.iD else ic.imageID)) := by
  refine ⟨?_, ?_, ?_, ?_⟩
  · intro h0 h1
    simp [updateRepositoryCache, hl, hr, h0, h1, addReference]
  · intro h0 h1
    by_cases hid : ic.imageID = ""
    · simp only [hid, if_true] at h0
      simp [updateRepositoryCache, hl, hr, hid, h0, h1, addReference]
    · simp only [hid, if_false] at h0
      simp [updateRepositoryCache, hl, hr, hid, h0, h1, addReference]
  · intro dig h0 h1 h2 h3
    by_cases hid : ic.imageID = ""
    · simp only [hid, if_true] at h0 ⊢
      simp [updateRepositoryCache, hl, hr, hid, h0, h1, h2, h3, addReference,
        lookupBinding]
    · simp only [hid, if_false] at h0 ⊢
      simp [updateRepositoryCache, hl, hr, hid, h0, h1, h2, h3, addReference,
        lookupBinding]
  · intro dig h0 h1 h2 h3
    by_cases hid : ic.imageID = ""
    · simp only [hid, if_true] at h0 ⊢
      by_cases hdr : dig.refString = ref.refString <;>
        simp [updateRepositoryCache, hl, hr, hid, h0, h1, h2, h3, addReference,
          lookupBinding, hdr]
    · simp only [hid, if_false] at h0 ⊢
      by_cases hdr : dig.refString = ref.refString <;>
        simp [updateRepositoryCache, hl, hr, hid, h0, h1, h2, h3, addReference,
          lookupBinding, hdr]

/-- Witness for C5: a full successful sync of `busybox` binds both the tag
reference and the digest reference to the looked-up image ID. -/
theorem C5_witness :
    ((updateRepositoryCache ⟨fun _ => "IMG", fun _ => true⟩ []
        { options := { reference := "busybox", manifestDigest := "sha256:abc" }
          imageLayers := [{ image := { iD := "L" } }] }).2.2 = none ∧
      lookupBinding (updateRepositoryCache ⟨fun _ => "IMG", fun _ => true⟩ []
        { options := { reference := "busybox", manifestDigest := "sha256:abc" }
          imageLayers := [{ image := { iD := "L" } }] }).1
        (⟨DefaultHostname, "library/busybox", none, none⟩ : ParsedNamed).refString =
          some (if ("" : String) = "" then "IMG" else "") ∧
      lookupBinding (updateRepositoryCache ⟨fun _ => "IMG", fun _ => true⟩ []
        { options := { reference := "busybox", manifestDigest := "sha256:abc" }
          imageLayers := [{ image := { iD := "L" } }] }).1
        (⟨DefaultHostname, "library/busybox", none, some "sha256:abc"⟩ : ParsedNamed).refString =
          some (if ("" : String) = "" then "IMG" else "")) :=
  (C5_update_repository_cache ⟨fun _ => "IMG", fun _ => true⟩ []
      { options := { reference := "busybox", manifestDigest := "sha256:abc" }
        imageLayers := [{ image := { iD := "L" } }] }
      { image := { iD := "L" } } [] ⟨DefaultHostname, "library/busybox", none, none⟩
      rfl (by decide)).2.2.2
    ⟨DefaultHostname, "library/busybox", none, some "sha256:abc"⟩
    (by decide) rfl (by decide) rfl

/-! ## C4: best-effort schema-2 manifest fetch in PullImage -/

/-- C4: once `PullImage` reaches the manifest stage (reference parses, host
identity, ping, registry and auth discovery, token fetch and the schema-1
fetch all succeed) on a state with no schema-2 manifest yet, a schema-2
fetch failure never aborts the pull — the schema-2 field stays absent,
`ManifestDigest` remains the schema-1 digest, and if the remaining phases
succeed the pull returns no error — while a successful schema-2 fetch that
deserializes to a schema-2 manifest overwrites `ManifestDigest` with the
schema-2 digest. -/
theorem C4_schema2_best_effort (env : PullEnv) (ic : ImageC) (ref : ParsedNamed)
    (host reg : String) (m : Manifest) (d1 : String)
    (h0 : ic.options.imageManifestSchema2 = none)
    (h1 : parseNamed ic.options.reference = some ref)
    (h2 : env.uuid = .ok host)
    (h3 : env.ping = .ok true)
    (h4 : env.learnRegistryURL = .ok reg)
    (h5 : env.learnAuthURL = .ok none ∨
      (∃ u t, env.learnAuthURL = .ok (some u) ∧ env.fetchToken = .ok t))
    (h6 : env.fetchManifest1 = .ok (.schema1 m, d1)) :
    (∀ e, env.fetchManifest2 = .error e →
        (PullImage env ic).1.options.imageManifestSchema2 = none ∧
        (PullImage env ic).1.options.manifestDigest = d1 ∧
        (∀ ls, LayersToDownload host env.layerCacheGet m = .ok ls →
          env.downloadLayers = none → (PullImage env ic).2 = none))
  ∧ (∀ m2 d2, env.fetchManifest2 = .ok (.schema2 m2, d2) →
        (PullImage env ic).1.options.imageManifestSchema2 = some m2 ∧
        (PullImage env ic).1.options.manifestDigest = d2) := by
  have hE : ParseReference ic = ((ParseReference ic).1, none) := by
    simp [ParseReference, h1]
  have hf2 : (ParseReference ic).1.options.imageManifestSchema2 = none := by
    simp [ParseReference, h1, h0]
  generalize hic1 : (ParseReference ic).1 = ic1 at hE hf2
  constructor
  · intro e he
    refine ⟨?_, ?_, fun ls hls hdl => ?_⟩
    · rcases h5 with h5 | ⟨u, t, h5, h5t⟩ <;>
        cases hld : LayersToDownload host env.layerCacheGet m <;>
        cases hdl2 : env.downloadLayers <;>
        simp [PullImage, hE, h2, h3, h4, h6, he, hf2, hld, hdl2, *]
    · rcases h5 with h5 | ⟨u, t, h5, h5t⟩ <;>
        cases hld : LayersToDownload host env.layerCacheGet m <;>
        cases hdl2 : env.downloadLayers <;>
        simp [PullImage, hE, h2, h3, h4, h6, he, hld, hdl2, *]
    · rcases h5 with h5 | ⟨u, t, h5, h5t⟩ <;>
        simp [PullImage, hE, h2, h3, h4, h6, he, hls, hdl, *]
  · intro m2 d2 he
    constructor
    · rcases h5 with h5 | ⟨u, t, h5, h5t⟩ <;>
        cases hld : LayersToDownload host env.layerCacheGet m <;>
        cases hdl2 : env.downloadLayers <;>
        simp [PullImage, hE, h2, h3, h4, h6, he, hld, hdl2, *]
    · rcases h5 with h5 | ⟨u, t, h5, h5t⟩ <;>
        cases hld : LayersToDownload host env.layerCacheGet m <;>
        cases hdl2 : env.downloadLayers <;>
        simp [PullImage, hE, h2, h3, h4, h6, he, hld, hdl2, *]

/-- Concrete environment for the C4 witness: every phase succeeds except the
schema-2 manifest fetch. -/
def pullEnvW : PullEnv :=
  { uuid := .ok "h"
    ping := .ok true
    learnRegistryURL := .ok "https://r"
    learnAuthURL := .ok none
    fetchToken := .error "unused"
    fetchManifest1 := .ok (.schema1 { entries := [] }, "d1")
    fetchManifest2 := .error (.generic "boom")
    layerCacheGet := noLayerCache
    downloadLayers := none }

/-- Witness for C4: with the schema-2 fetch failing and everything else
succeeding, the pull completes without error, no schema-2 manifest is
recorded, and the digest is the schema-1 digest. -/
theorem C4_witness :
    (PullImage pullEnvW { options := { reference := "busybox" } }).1.options.imageManifestSchema2 = none ∧
    (PullImage pullEnvW { options := { reference := "busybox" } }).1.options.manifestDigest = "d1" ∧
    (PullImage pullEnvW { options := { reference := "busybox" } }).2 = none := by
  have h := (C4_schema2_best_effort pullEnvW { options := { reference := "busybox" } }
      ⟨DefaultHostname, "library/busybox", none, none⟩ "h" "https://r" { entries := [] } "d1"
      rfl (by decide) rfl rfl rfl (Or.inl rfl) rfl).1 (.generic "boom") rfl
  exact ⟨h.1, h.2.1, h.2.2 [] rfl rfl⟩

end Imagec
